import Mathlib

/-!
Verification development for the capsule-network repository
(src/cifar10/capsnet.py and src/symmetric_forms/main.py).

The numerical capsule primitives (squash, routing softmax) live in the
repository module capsule.py, which is imported by both entry points but is
not part of the provided sources; those primitives are modelled from the
design spec.  Everything else (argument defaults, the main control flow,
the adversarial-attack loop, dataset label preparation, weight loading and
the args.txt side effect) is embedded directly from the two source files.
-/

/-! ## Squash nonlinearity (spec section 4.1) -/

/-- Squared Euclidean norm of a capsule vector. -/
def sqNorm (n : ℕ) (v : Fin n → ℝ) : ℝ := ∑ i, v i ^ 2

/-- Modelled from the spec: Euclidean length of a capsule vector
(capsule.py, which defines squash, is not among the provided sources). -/
noncomputable def capsNorm (n : ℕ) (v : Fin n → ℝ) : ℝ := Real.sqrt (sqNorm n v)

/-- Modelled from the spec: the scalar factor of squash,
(norm squared / (1 + norm squared)) times 1 / (norm + epsilon), with the
numeric-stability epsilon added to the normalizing denominator. -/
noncomputable def squashScale (n : ℕ) (ε : ℝ) (v : Fin n → ℝ) : ℝ :=
  sqNorm n v / (1 + sqNorm n v) / (capsNorm n v + ε)

/-- Modelled from the spec: the squash nonlinearity applied to one capsule
vector; a batch applies this map to every vector independently. -/
noncomputable def squash (n : ℕ) (ε : ℝ) (v : Fin n → ℝ) : Fin n → ℝ :=
  fun i => squashScale n ε v * v i

/-! ## Routing by agreement (spec section 4.3) -/

/-- Modelled from the spec: softmax over one row of routing logits. -/
noncomputable def softmaxRow (m : ℕ) (b : Fin m → ℝ) (j : Fin m) : ℝ :=
  Real.exp (b j) / ∑ k, Real.exp (b k)

/-- Modelled from the spec: coupling coefficient c i j obtained by taking the
softmax of the logit row b i over the higher-capsule axis. -/
noncomputable def coupling (n m : ℕ) (b : Fin n → Fin m → ℝ) (i : Fin n)
    (j : Fin m) : ℝ :=
  softmaxRow m (b i) j

/-- Modelled from the spec: pre-activation of higher capsule j, the
coupling-weighted sum of prediction vectors over the lower capsules. -/
noncomputable def routedPreActivation (n m d : ℕ)
    (uhat : Fin n → Fin m → Fin d → ℝ) (b : Fin n → Fin m → ℝ)
    (j : Fin m) : Fin d → ℝ :=
  fun x => ∑ i, coupling n m b i j * uhat i j x

/-- Modelled from the spec: output of higher capsule j, the squashed
pre-activation. -/
noncomputable def routedOutput (n m d : ℕ) (ε : ℝ)
    (uhat : Fin n → Fin m → Fin d → ℝ) (b : Fin n → Fin m → ℝ)
    (j : Fin m) : Fin d → ℝ :=
  squash d ε (routedPreActivation n m d uhat b j)

/-- Modelled from the spec: one routing iteration updates each logit by the
scalar agreement between the prediction vector and the routed output. -/
noncomputable def routingStep (n m d : ℕ) (ε : ℝ)
    (uhat : Fin n → Fin m → Fin d → ℝ) (b : Fin n → Fin m → ℝ) :
    Fin n → Fin m → ℝ :=
  fun i j => b i j + ∑ x, uhat i j x * routedOutput n m d ε uhat b j x

/-- Modelled from the spec: routing logits after t iterations, starting from
the all-zero logits that every forward pass resets to. -/
noncomputable def routingLogits (n m d : ℕ) (ε : ℝ)
    (uhat : Fin n → Fin m → Fin d → ℝ) : ℕ → Fin n → Fin m → ℝ
  | 0 => fun _ _ => 0
  | t + 1 => routingStep n m d ε uhat (routingLogits n m d ε uhat t)

/-! ## Configuration and model construction (capsnet.py lines 28-31, 67-71,
99-122, 337-388) -/

/-- Command-line arguments of the cifar10 entry point with the argparse
defaults of capsnet.py lines 338-386. -/
structure CifarArgs where
  epochs : ℤ
  batchSize : ℤ
  maxNumSamples : Option ℤ
  lr : ℚ
  lrDecay : ℚ
  scaleReconstructionLoss : ℚ
  numRouting : ℤ
  shiftFraction : ℚ
  cropX : Option ℤ
  cropY : Option ℤ
  debug : Bool
  saveDir : String
  testing : Bool
  fool : Bool
  rotationRange : ℚ
  manipulate : ℤ
  weights : Option String
deriving DecidableEq

/-- The argparse default values of capsnet.py; num_routing defaults to 3 and
its help text documents that it should be positive, but no constraint is
attached to the parser. -/
def cifarDefaultArgs : CifarArgs :=
  { epochs := 100
    batchSize := 64
    maxNumSamples := none
    lr := 1 / 1000
    lrDecay := 9 / 10
    scaleReconstructionLoss := 5 / 10000
    numRouting := 3
    shiftFraction := 1 / 10
    cropX := none
    cropY := none
    debug := false
    saveDir := "./result-capsnet"
    testing := false
    fool := false
    rotationRange := 0
    manipulate := 5
    weights := none }

/-- The architecture parameters create_capsnet passes to CapsuleLayer. -/
structure CapsNetConfig where
  nClass : ℕ
  outDim : ℕ
  numRouting : ℤ
deriving DecidableEq

/-- capsnet.py line 29: the higher-capsule dimension constant. -/
def capsnetOutDim : ℕ := 42

/-- capsnet.py line 30: one none-of-the-above class is added. -/
def noneOfTheAboveClass : ℕ := 1

/-- capsnet.py line 110: the class count returned by load_dataset. -/
def loadDatasetNClass (withNota : ℕ) : ℕ := 10 + withNota

/-- capsnet.py lines 117-122: create_capsnet builds the capsule layer with
exactly the num_routing it receives; there is no validation of its value. -/
def createCapsnet (nClass outDim : ℕ) (numRouting : ℤ) : CapsNetConfig :=
  { nClass := nClass, outDim := outDim, numRouting := numRouting }

/-- capsnet.py lines 52-71: main loads the dataset and then unconditionally
constructs the model from args.num_routing; no configuration check sits
between argument parsing and model construction. -/
def cifarMainModel (args : CifarArgs) : CapsNetConfig :=
  createCapsnet (loadDatasetNClass noneOfTheAboveClass) capsnetOutDim
    args.numRouting

/-! ## Adversarial attack driver (capsnet.py lines 277-329) -/

/-- Per-sample data the attack loop consumes: the true label (argmax of the
one-hot y_test row), the model prediction on the clean sample, and the model
prediction on the perturbed sample when the attack library returns one
(none models a None return of the attack call). -/
structure AttackSample where
  yTrue : ℕ
  yPred : ℕ
  advPred : Option ℕ
deriving DecidableEq

/-- The two counters the loop maintains. -/
structure AttackCounters where
  numAttacks : ℕ
  numSuccessAttacks : ℕ
deriving DecidableEq

/-- capsnet.py lines 285-313: one iteration of the attack loop.  A sample
whose clean prediction differs from its label is skipped; otherwise the
attempt counter is incremented, and the success counter is incremented
exactly when an adversarial image exists and is predicted differently from
the true label. -/
def attackStep (st : AttackCounters) (s : AttackSample) : AttackCounters :=
  if s.yPred ≠ s.yTrue then st
  else
    let st1 : AttackCounters :=
      { numAttacks := st.numAttacks + 1
        numSuccessAttacks := st.numSuccessAttacks }
    match s.advPred with
    | none => st1
    | some ya =>
        if ya ≠ s.yTrue then
          { numAttacks := st1.numAttacks
            numSuccessAttacks := st1.numSuccessAttacks + 1 }
        else st1

/-- The attack loop folded over a list of samples, counters starting at 0. -/
def runAttackLoop (samples : List AttackSample) : AttackCounters :=
  samples.foldl attackStep { numAttacks := 0, numSuccessAttacks := 0 }

/-- capsnet.py line 285: the loop ranges over the first max_num_attacks test
samples. -/
def adversarialAttack (samples : List AttackSample) (maxNumAttacks : ℕ) :
    AttackCounters :=
  runAttackLoop (samples.take maxNumAttacks)

/-- A sample is skipped when the clean prediction is already wrong. -/
def isSkipped (s : AttackSample) : Bool := s.yPred != s.yTrue

/-- A sample is attempted when the clean prediction equals the label. -/
def isAttempted (s : AttackSample) : Bool := s.yPred == s.yTrue

/-- An attempted sample is a success when an adversarial image was found and
its prediction differs from the true label. -/
def isSuccess (s : AttackSample) : Bool :=
  isAttempted s &&
    (match s.advPred with
     | some ya => ya != s.yTrue
     | none => false)

/-- An attempted sample that is not a success is a failed attack. -/
def isFailed (s : AttackSample) : Bool := isAttempted s && !(isSuccess s)

/-- capsnet.py lines 322-329: the final report, either the zero-attacks
warning or the success rate in percent.  The division happens only in the
nonzero branch. -/
inductive AttackReport where
  | warning : AttackReport
  | successRate : ℚ → AttackReport
deriving DecidableEq

/-- capsnet.py lines 322-329 as a function of the final counters. -/
def reportAttackResults (numAttacks numSuccessAttacks : ℕ) : AttackReport :=
  if numAttacks = 0 then AttackReport.warning
  else AttackReport.successRate
    ((numSuccessAttacks : ℚ) / (numAttacks : ℚ) * 100)

/-! ## Weight loading (capsnet.py lines 75-79, main.py lines 62-72) -/

/-- capsnet.py lines 75-79: load the weights when a path is given and the
file exists, otherwise print the warning.  Returns (loaded, warned). -/
def cifarWeightsLoad (weights : Option String) (fileOnDisk : String → Bool) :
    Bool × Bool :=
  match weights with
  | some w => if fileOnDisk w then (true, false) else (false, true)
  | none => (false, true)

/-- main.py lines 62-72: load the weights when a path is given and the file
exists; in test mode a warning is printed only when no path was given at
all.  Returns (loaded, warned). -/
def symWeightsLoad (weights : Option String) (fileOnDisk : String → Bool)
    (testing : Bool) : Bool × Bool :=
  (match weights with
   | some w => fileOnDisk w
   | none => false,
   testing && weights.isNone)

/-! ## Loss weights (capsnet.py lines 164-167 and 352-353, main.py lines
145-148 and 448-449) -/

/-- capsnet.py line 352: default scale_reconstruction_loss 0.0005. -/
def cifarDefaultScaleReconstructionLoss : ℚ := 5 / 10000

/-- main.py line 448: default scale_reconstruction_loss 1, although the
comment next to the compile call in train claims 0.0005. -/
def symDefaultScaleReconstructionLoss : ℚ := 1

/-- Both train functions compile with loss_weights = [1, scale]: margin loss
keeps weight 1 and the reconstruction loss is scaled. -/
def compiledLossWeights (scale : ℚ) : ℚ × ℚ := (1, scale)

/-- The total loss the compile call induces for given per-head losses. -/
def combinedLoss (scale marginL reconL : ℚ) : ℚ :=
  (compiledLossWeights scale).1 * marginL +
    (compiledLossWeights scale).2 * reconL

/-! ## Dataset labels (capsnet.py lines 99-114) -/

/-- keras to_categorical for a single integer label: a one-hot row of the
requested width. -/
def oneHot (numClasses y : ℕ) : List ℕ :=
  (List.range numClasses).map (fun j => if j = y then 1 else 0)

/-- to_categorical over a list of labels. -/
def toCategorical (numClasses : ℕ) (ys : List ℕ) : List (List ℕ) :=
  ys.map (oneHot numClasses)

/-- capsnet.py lines 99-114 restricted to the label pipeline: n_class is
10 plus the none-of-the-above flag and both splits are one-hot encoded to
that width.  The raw labels are the external CIFAR-10 labels. -/
def loadDatasetLabels (withNota : ℕ) (yTrainRaw yTestRaw : List ℕ) :
    List (List ℕ) × List (List ℕ) × ℕ :=
  (toCategorical (10 + withNota) yTrainRaw,
   toCategorical (10 + withNota) yTestRaw,
   10 + withNota)

/-! ## args.txt side effect (capsnet.py lines 41-45, main.py lines 37-41) -/

/-- capsnet.py lines 41-45: the set of files main writes in its argument
saving step; the guard is only on the testing flag, never on fool. -/
def cifarArgsFileWrites (testing fool : Bool) (saveDir : String) :
    List String :=
  if !testing then [saveDir ++ "/args.txt"] else []

/-- main.py lines 37-41: same write, guarded only on the testing flag. -/
def symArgsFileWrites (testing : Bool) (saveDir : String) : List String :=
  if !testing then [saveDir ++ "/args.txt"] else []

/-! ## Helper lemmas -/

theorem sqNorm_nonneg (n : ℕ) (v : Fin n → ℝ) : 0 ≤ sqNorm n v :=
  Finset.sum_nonneg fun i _ => sq_nonneg (v i)

theorem capsNorm_nonneg (n : ℕ) (v : Fin n → ℝ) : 0 ≤ capsNorm n v :=
  Real.sqrt_nonneg _

theorem sqNorm_eq_zero (n : ℕ) (v : Fin n → ℝ) :
    sqNorm n v = 0 ↔ ∀ i, v i = 0 := by
  unfold sqNorm
  rw [Finset.sum_eq_zero_iff_of_nonneg fun i _ => sq_nonneg (v i)]
  constructor
  · intro h i
    have := h i (Finset.mem_univ i)
    exact pow_eq_zero_iff (n := 2) (by norm_num) |>.mp this
  · intro h i _
    rw [h i]; ring

theorem capsNorm_eq_zero (n : ℕ) (v : Fin n → ℝ) :
    capsNorm n v = 0 ↔ ∀ i, v i = 0 := by
  unfold capsNorm
  rw [Real.sqrt_eq_zero (sqNorm_nonneg n v)]
  exact sqNorm_eq_zero n v

theorem sqNorm_const_mul (n : ℕ) (c : ℝ) (v : Fin n → ℝ) :
    sqNorm n (fun i => c * v i) = c ^ 2 * sqNorm n v := by
  unfold sqNorm
  rw [Finset.mul_sum]
  exact Finset.sum_congr rfl fun i _ => by ring

theorem capsNorm_const_mul (n : ℕ) (c : ℝ) (hc : 0 ≤ c) (v : Fin n → ℝ) :
    capsNorm n (fun i => c * v i) = c * capsNorm n v := by
  unfold capsNorm
  rw [sqNorm_const_mul, Real.sqrt_mul (sq_nonneg c), Real.sqrt_sq hc]

theorem squashScale_nonneg (n : ℕ) (ε : ℝ) (hε : 0 < ε) (v : Fin n → ℝ) :
    0 ≤ squashScale n ε v := by
  unfold squashScale
  have h1 : (0:ℝ) ≤ sqNorm n v := sqNorm_nonneg n v
  have h2 : (0:ℝ) ≤ capsNorm n v := capsNorm_nonneg n v
  positivity

theorem squash_norm_eq (n : ℕ) (ε : ℝ) (hε : 0 < ε) (v : Fin n → ℝ) :
    capsNorm n (squash n ε v) =
      sqNorm n v / (1 + sqNorm n v) * (capsNorm n v / (capsNorm n v + ε)) := by
  have hc := squashScale_nonneg n ε hε v
  have h1 : (0:ℝ) < 1 + sqNorm n v := by linarith [sqNorm_nonneg n v]
  have h2 : (0:ℝ) < capsNorm n v + ε := by linarith [capsNorm_nonneg n v]
  have : capsNorm n (squash n ε v) = squashScale n ε v * capsNorm n v := by
    unfold squash
    exact capsNorm_const_mul n _ hc v
  rw [this]
  unfold squashScale
  field_simp

theorem squash_length_lt_one (n : ℕ) (ε : ℝ) (hε : 0 < ε) (v : Fin n → ℝ) :
    capsNorm n (squash n ε v) < 1 := by
  rw [squash_norm_eq n ε hε v]
  have hs := sqNorm_nonneg n v
  have hN := capsNorm_nonneg n v
  have h1 : (0:ℝ) < 1 + sqNorm n v := by linarith
  have h2 : (0:ℝ) < capsNorm n v + ε := by linarith
  have ha : sqNorm n v / (1 + sqNorm n v) < 1 := by
    rw [div_lt_one h1]; linarith
  have ha0 : 0 ≤ sqNorm n v / (1 + sqNorm n v) := by positivity
  have hb : capsNorm n v / (capsNorm n v + ε) < 1 := by
    rw [div_lt_one h2]; linarith
  have hb0 : 0 ≤ capsNorm n v / (capsNorm n v + ε) := by positivity
  calc sqNorm n v / (1 + sqNorm n v) * (capsNorm n v / (capsNorm n v + ε))
      ≤ sqNorm n v / (1 + sqNorm n v) := mul_le_of_le_one_right ha0 hb.le
    _ < 1 := ha

theorem squash_length_zero_iff (n : ℕ) (ε : ℝ) (hε : 0 < ε) (v : Fin n → ℝ) :
    capsNorm n (squash n ε v) = 0 ↔ ∀ i, v i = 0 := by
  rw [squash_norm_eq n ε hε v]
  constructor
  · intro h
    by_contra hv
    push_neg at hv
    obtain ⟨i, hi⟩ := hv
    have hs : 0 < sqNorm n v := by
      have hle : v i ^ 2 ≤ sqNorm n v :=
        Finset.single_le_sum (fun i _ => sq_nonneg (v i)) (Finset.mem_univ i)
      have : 0 < v i ^ 2 := pow_two_pos_of_ne_zero hi
      linarith
    have hN : 0 < capsNorm n v := Real.sqrt_pos.mpr hs
    have h1 : (0:ℝ) < 1 + sqNorm n v := by linarith
    have h2 : (0:ℝ) < capsNorm n v + ε := by linarith
    have : 0 < sqNorm n v / (1 + sqNorm n v) *
        (capsNorm n v / (capsNorm n v + ε)) :=
      mul_pos (div_pos hs h1) (div_pos hN h2)
    linarith
  · intro hv
    have hs : sqNorm n v = 0 := (sqNorm_eq_zero n v).mpr hv
    have hN : capsNorm n v = 0 := (capsNorm_eq_zero n v).mpr hv
    rw [hs, hN]
    simp

theorem softmaxRow_sum_pos (m : ℕ) (hm : 0 < m) (b : Fin m → ℝ) :
    0 < ∑ k, Real.exp (b k) := by
  have : Nonempty (Fin m) := ⟨⟨0, hm⟩⟩
  exact Finset.sum_pos (fun k _ => Real.exp_pos (b k)) Finset.univ_nonempty

theorem attackStep_numAttacks (st : AttackCounters) (s : AttackSample) :
    (attackStep st s).numAttacks =
      st.numAttacks + (if isAttempted s then 1 else 0) := by
  unfold attackStep isAttempted
  by_cases h : s.yPred = s.yTrue
  · simp only [h, ne_eq, not_true_eq_false, if_false, beq_self_eq_true,
      if_true]
    cases s.advPred with
    | none => rfl
    | some ya =>
        by_cases hya : ya = s.yTrue <;> simp [hya]
  · simp [h]

theorem attackStep_numSuccess (st : AttackCounters) (s : AttackSample) :
    (attackStep st s).numSuccessAttacks =
      st.numSuccessAttacks + (if isSuccess s then 1 else 0) := by
  unfold attackStep isSuccess isAttempted
  by_cases h : s.yPred = s.yTrue
  · simp only [h, ne_eq, not_true_eq_false, if_false, beq_self_eq_true,
      Bool.true_and]
    cases s.advPred with
    | none => rfl
    | some ya =>
        by_cases hya : ya = s.yTrue <;> simp [hya]
  · simp [h]

theorem foldl_attack_counts (xs : List AttackSample) (st : AttackCounters) :
    (xs.foldl attackStep st).numAttacks =
      st.numAttacks + (xs.filter isAttempted).length ∧
    (xs.foldl attackStep st).numSuccessAttacks =
      st.numSuccessAttacks + (xs.filter isSuccess).length := by
  induction xs generalizing st with
  | nil => simp
  | cons s xs ih =>
      obtain ⟨ih1, ih2⟩ := ih (attackStep st s)
      rw [List.foldl_cons]
      constructor
      · rw [ih1, attackStep_numAttacks]
        by_cases h : isAttempted s = true <;>
          simp [List.filter_cons, h] <;> omega
      · rw [ih2, attackStep_numSuccess]
        by_cases h : isSuccess s = true <;>
          simp [List.filter_cons, h] <;> omega

theorem runAttackLoop_counts (xs : List AttackSample) :
    (runAttackLoop xs).numAttacks = (xs.filter isAttempted).length ∧
    (runAttackLoop xs).numSuccessAttacks = (xs.filter isSuccess).length := by
  have := foldl_attack_counts xs { numAttacks := 0, numSuccessAttacks := 0 }
  simpa [runAttackLoop] using this

theorem filter_skipped_attempted (xs : List AttackSample) :
    (xs.filter isSkipped).length + (xs.filter isAttempted).length =
      xs.length := by
  induction xs with
  | nil => simp
  | cons s xs ih =>
      have h : isSkipped s = !(isAttempted s) := by
        simp [isSkipped, isAttempted, bne]
      by_cases ha : isAttempted s = true <;>
        simp [List.filter_cons, h, ha] <;> omega

theorem filter_success_failed (xs : List AttackSample) :
    (xs.filter isSuccess).length + (xs.filter isFailed).length =
      (xs.filter isAttempted).length := by
  induction xs with
  | nil => simp
  | cons s xs ih =>
      have hf : isFailed s = (isAttempted s && !(isSuccess s)) := rfl
      have hsa : isSuccess s = true → isAttempted s = true := by
        intro h
        exact (Bool.and_elim_left (by simpa [isSuccess] using h))
      by_cases hs : isSuccess s = true
      · have ha := hsa hs
        simp [List.filter_cons, hs, hf, ha] <;> omega
      · by_cases ha : isAttempted s = true <;>
          simp [List.filter_cons, hs, hf, ha] <;> omega

theorem oneHot_length (numClasses y : ℕ) :
    (oneHot numClasses y).length = numClasses := by
  simp [oneHot]

theorem oneHot_getD_of_ne (numClasses y j : ℕ) (hj : j < numClasses)
    (hne : j ≠ y) : (oneHot numClasses y).getD j 0 = 0 := by
  simp [oneHot, List.getD, List.getElem?_map, List.getElem?_range, hj, hne]

/-! ## Claim theorems -/

/-- Claim C1: squash preserves each vector's direction (the output is a
nonnegative scalar multiple of the input), rescales its length to
(norm squared / (1 + norm squared)) times (norm / (norm + epsilon)), so
every output vector has length strictly less than one, and has length zero
exactly for the zero input vector. -/
theorem squash_direction_and_length (n : ℕ) (ε : ℝ) (v : Fin n → ℝ)
    (hε : 0 < ε) :
    (∃ c : ℝ, 0 ≤ c ∧ ∀ i, squash n ε v i = c * v i) ∧
    capsNorm n (squash n ε v) =
      sqNorm n v / (1 + sqNorm n v) * (capsNorm n v / (capsNorm n v + ε)) ∧
    capsNorm n (squash n ε v) < 1 ∧
    (capsNorm n (squash n ε v) = 0 ↔ ∀ i, v i = 0) :=
  ⟨⟨squashScale n ε v, squashScale_nonneg n ε hε v, fun _ => rfl⟩,
   squash_norm_eq n ε hε v, squash_length_lt_one n ε hε v,
   squash_length_zero_iff n ε hε v⟩

/-- Witness for C1 at the one-dimensional zero vector and epsilon equal to
one. -/
theorem squash_direction_and_length_witness :
    ((0:ℝ) < 1) ∧ capsNorm 1 (squash 1 1 (fun _ => 0)) < 1 :=
  ⟨one_pos, (squash_direction_and_length 1 1 (fun _ => 0) one_pos).2.2.1⟩

/-- Claim C2: at every routing iteration the coupling coefficients are the
row softmax of the logits, are non-negative, and sum to one over the
higher-capsule axis for each lower capsule. -/
theorem routing_coupling_row_stochastic (n m d : ℕ) (hm : 0 < m) (ε : ℝ)
    (uhat : Fin n → Fin m → Fin d → ℝ) (t : ℕ) (i : Fin n) :
    (∀ j, coupling n m (routingLogits n m d ε uhat t) i j =
      softmaxRow m (routingLogits n m d ε uhat t i) j) ∧
    (∀ j, 0 ≤ coupling n m (routingLogits n m d ε uhat t) i j) ∧
    ∑ j, coupling n m (routingLogits n m d ε uhat t) i j = 1 := by
  refine ⟨fun j => rfl, ?_, ?_⟩
  · intro j
    exact div_nonneg (Real.exp_nonneg _) (softmaxRow_sum_pos m hm _).le
  · unfold coupling softmaxRow
    rw [← Finset.sum_div]
    exact div_self (softmaxRow_sum_pos m hm _).ne'

/-- Witness for C2 with one lower and one higher capsule, dimension one,
zero prediction vectors, at the logits of the second routing iteration. -/
theorem routing_coupling_row_stochastic_witness :
    (0 < 1) ∧
    ∑ j, coupling 1 1 (routingLogits 1 1 1 1 (fun _ _ _ => 0) 2)
      ⟨0, Nat.one_pos⟩ j = 1 :=
  ⟨Nat.one_pos,
   (routing_coupling_row_stochastic 1 1 1 Nat.one_pos 1 (fun _ _ _ => 0) 2
      ⟨0, Nat.one_pos⟩).2.2⟩

/-- Claim C3: the configuration pipeline performs no validation of
num_routing; main constructs the model with num_routing zero or negative
exactly as given, so a non-positive routing count is not rejected before
model construction. -/
theorem numRouting_zero_reaches_model_construction :
    (cifarMainModel { cifarDefaultArgs with numRouting := 0 }).numRouting
      = 0 ∧
    (cifarMainModel { cifarDefaultArgs with numRouting := -1 }).numRouting
      = -1 ∧
    (∀ a : CifarArgs, (cifarMainModel a).numRouting = a.numRouting) :=
  ⟨rfl, rfl, fun _ => rfl⟩

/-- Claim C4: the attack driver examines at most max_num_attacks samples,
attempts exactly the samples whose clean prediction equals the true label,
counts a success exactly when a perturbed image exists and is predicted
differently from the true label, and the skipped, attempted, succeeded and
failed classifications are mutually exclusive and sum correctly. -/
theorem adversarial_attack_bookkeeping (xs : List AttackSample) (maxN : ℕ) :
    (xs.take maxN).length ≤ maxN ∧
    (adversarialAttack xs maxN).numAttacks =
      ((xs.take maxN).filter isAttempted).length ∧
    (adversarialAttack xs maxN).numSuccessAttacks =
      ((xs.take maxN).filter isSuccess).length ∧
    (∀ s, isAttempted s = true ↔ s.yPred = s.yTrue) ∧
    (∀ s, isSkipped s = !(isAttempted s)) ∧
    (∀ s, isSuccess s = true ↔
      (s.yPred = s.yTrue ∧ ∃ ya, s.advPred = some ya ∧ ya ≠ s.yTrue)) ∧
    (∀ s, isFailed s = (isAttempted s && !(isSuccess s))) ∧
    ((xs.take maxN).filter isSkipped).length +
      ((xs.take maxN).filter isAttempted).length = (xs.take maxN).length ∧
    ((xs.take maxN).filter isSuccess).length +
      ((xs.take maxN).filter isFailed).length =
      ((xs.take maxN).filter isAttempted).length := by
  refine ⟨?_, ?_, ?_, ?_, ?_, ?_, ?_, ?_, ?_⟩
  · simpa using List.length_take_le maxN xs
  · exact (runAttackLoop_counts (xs.take maxN)).1
  · exact (runAttackLoop_counts (xs.take maxN)).2
  · intro s; simp [isAttempted]
  · intro s; simp [isSkipped, isAttempted, bne]
  · intro s
    cases h : s.advPred <;>
      simp [isSuccess, isAttempted, h, bne_iff_ne, beq_iff_eq]
  · intro s; rfl
  · exact filter_skipped_attempted (xs.take maxN)
  · exact filter_success_failed (xs.take maxN)

/-- Claim C5: with zero attempted attacks the driver reports the warning and
no success rate; with at least one attempted attack it reports the success
rate computed with a provably nonzero denominator. -/
theorem attack_report_no_division_by_zero (na ns : ℕ) :
    reportAttackResults 0 ns = AttackReport.warning ∧
    (0 < na →
      reportAttackResults na ns =
        AttackReport.successRate ((ns : ℚ) / (na : ℚ) * 100) ∧
      (na : ℚ) ≠ 0) := by
  constructor
  · rfl
  · intro h
    refine ⟨?_, ?_⟩
    · simp [reportAttackResults, Nat.pos_iff_ne_zero.mp h]
    · exact_mod_cast Nat.pos_iff_ne_zero.mp h

/-- Witness for C5 at zero attempted attacks and at four attempted with
three successes. -/
theorem attack_report_no_division_by_zero_witness :
    reportAttackResults 0 3 = AttackReport.warning ∧
    (reportAttackResults 4 3 =
        AttackReport.successRate ((3 : ℚ) / (4 : ℚ) * 100) ∧
      ((4 : ℕ) : ℚ) ≠ 0) :=
  ⟨(attack_report_no_division_by_zero 4 3).1,
   (attack_report_no_division_by_zero 4 3).2 (by norm_num)⟩

/-- Counterexample to C6: in the symmetric_forms entry point, with a weights
path given whose file does not exist, in test mode, the weights are not
loaded and no warning is printed. -/
theorem sym_missing_weights_no_warning :
    symWeightsLoad (some "trained_model.hdf5") (fun _ => false) true =
      (false, false) := rfl

/-- Claim C6 amended: in both entry points the weights are loaded exactly
when a path is given and the file exists; the cifar10 entry point warns
exactly when loading does not happen, while the symmetric_forms entry point
warns only in test mode and only when no weights path was given at all, so
a given-but-missing file passes silently there. -/
theorem weights_loading_behavior (w : Option String)
    (fileOnDisk : String → Bool) (t : Bool) :
    ((cifarWeightsLoad w fileOnDisk).1 = true ↔
      ∃ p, w = some p ∧ fileOnDisk p = true) ∧
    (cifarWeightsLoad w fileOnDisk).2 = !(cifarWeightsLoad w fileOnDisk).1 ∧
    ((symWeightsLoad w fileOnDisk t).1 = true ↔
      ∃ p, w = some p ∧ fileOnDisk p = true) ∧
    ((symWeightsLoad w fileOnDisk t).2 = true ↔ (t = true ∧ w = none)) := by
  cases w with
  | none => simp [cifarWeightsLoad, symWeightsLoad]
  | some p =>
      by_cases h : fileOnDisk p = true <;>
        simp [cifarWeightsLoad, symWeightsLoad, h]

/-- Claim C7: both entry points combine the losses with margin-loss weight
one and the reconstruction loss scaled; the cifar10 default scale is 0.0005
but the symmetric_forms default scale is 1, not 0.0005. -/
theorem reconstruction_loss_weight_defaults :
    compiledLossWeights cifarDefaultScaleReconstructionLoss =
      (1, 5 / 10000) ∧
    compiledLossWeights symDefaultScaleReconstructionLoss = (1, 1) ∧
    symDefaultScaleReconstructionLoss ≠ 5 / 10000 ∧
    (∀ m r : ℚ, combinedLoss cifarDefaultScaleReconstructionLoss m r =
      m + 5 / 10000 * r) := by
  refine ⟨rfl, rfl, by norm_num [symDefaultScaleReconstructionLoss], ?_⟩
  intro m r
  unfold combinedLoss compiledLossWeights cifarDefaultScaleReconstructionLoss
  ring

/-- Claim C8: at every iteration of the attack loop the success counter is
at most the attempt counter, which is at most max_num_attacks; a sample
whose attack returns none still increments the attempt counter, never the
success counter, and is classified as a failed attack. -/
theorem adversarial_attack_invariants (xs : List AttackSample) (maxN k : ℕ)
    (st : AttackCounters) (s : AttackSample)
    (hnone : s.advPred = none) (hok : s.yPred = s.yTrue) :
    (runAttackLoop ((xs.take maxN).take k)).numSuccessAttacks ≤
      (runAttackLoop ((xs.take maxN).take k)).numAttacks ∧
    (runAttackLoop ((xs.take maxN).take k)).numAttacks ≤ maxN ∧
    attackStep st s =
      { numAttacks := st.numAttacks + 1
        numSuccessAttacks := st.numSuccessAttacks } ∧
    isSuccess s = false ∧
    isFailed s = true := by
  obtain ⟨h1, h2⟩ := runAttackLoop_counts ((xs.take maxN).take k)
  have hsf := filter_success_failed ((xs.take maxN).take k)
  refine ⟨by omega, ?_, ?_, ?_, ?_⟩
  · have hlen : (((xs.take maxN).take k).filter isAttempted).length ≤
        ((xs.take maxN).take k).length := List.length_filter_le _ _
    have hl2 : ((xs.take maxN).take k).length ≤ (xs.take maxN).length := by
      rw [List.length_take]; exact min_le_right _ _
    have hl3 : (xs.take maxN).length ≤ maxN := List.length_take_le maxN xs
    omega
  · simp [attackStep, hok, hnone]
  · simp [isSuccess, hnone]
  · simp [isFailed, isSuccess, isAttempted, hok, hnone]

/-- Witness for C8 on a one-sample run whose attack returns none. -/
theorem adversarial_attack_invariants_witness :
    ((⟨3, 3, none⟩ : AttackSample).advPred = none) ∧
    ((⟨3, 3, none⟩ : AttackSample).yPred =
      (⟨3, 3, none⟩ : AttackSample).yTrue) ∧
    attackStep ⟨0, 0⟩ ⟨3, 3, none⟩ = ⟨1, 0⟩ :=
  ⟨rfl, rfl,
   (adversarial_attack_invariants [⟨3, 3, none⟩] 1 1 ⟨0, 0⟩ ⟨3, 3, none⟩
      rfl rfl).2.2.1⟩

/-- Claim C9: with the none-of-the-above flag set to one, load_dataset
returns n_class eleven and one-hot rows of width eleven whose entry at
index ten is zero for every training and test sample, because the raw
CIFAR-10 labels lie below ten. -/
theorem load_dataset_none_of_the_above (yTr yTe : List ℕ)
    (hTr : ∀ y ∈ yTr, y < 10) (hTe : ∀ y ∈ yTe, y < 10) :
    (loadDatasetLabels 1 yTr yTe).2.2 = 11 ∧
    (∀ v ∈ (loadDatasetLabels 1 yTr yTe).1,
      v.length = 11 ∧ v.getD 10 0 = 0) ∧
    (∀ v ∈ (loadDatasetLabels 1 yTr yTe).2.1,
      v.length = 11 ∧ v.getD 10 0 = 0) := by
  refine ⟨rfl, ?_, ?_⟩
  · intro v hv
    obtain ⟨y, hy, rfl⟩ := List.mem_map.mp hv
    have h10 : y < 10 := hTr y hy
    exact ⟨oneHot_length 11 y,
      oneHot_getD_of_ne 11 y 10 (by omega) (by omega)⟩
  · intro v hv
    obtain ⟨y, hy, rfl⟩ := List.mem_map.mp hv
    have h10 : y < 10 := hTe y hy
    exact ⟨oneHot_length 11 y,
      oneHot_getD_of_ne 11 y 10 (by omega) (by omega)⟩

/-- Witness for C9 on small concrete label lists. -/
theorem load_dataset_none_of_the_above_witness :
    (∀ y ∈ [0, 5, 9], y < 10) ∧
    (loadDatasetLabels 1 [0, 5, 9] [7]).2.2 = 11 ∧
    (∀ v ∈ (loadDatasetLabels 1 [0, 5, 9] [7]).1,
      v.length = 11 ∧ v.getD 10 0 = 0) :=
  ⟨by decide,
   (load_dataset_none_of_the_above [0, 5, 9] [7] (by decide) (by decide)).1,
   (load_dataset_none_of_the_above [0, 5, 9] [7]
      (by decide) (by decide)).2.1⟩

/-- Claim C10: in both entry points main writes save_dir/args.txt exactly
when the testing flag is false -- in the cifar10 entry point also in fool
mode, whose runs have the testing flag false -- and performs no write at
all when the testing flag is true. -/
theorem args_file_written_iff_not_testing (t f : Bool) (d : String) :
    ((d ++ "/args.txt") ∈ cifarArgsFileWrites t f d ↔ t = false) ∧
    ((d ++ "/args.txt") ∈ symArgsFileWrites t d ↔ t = false) ∧
    cifarArgsFileWrites t f d = cifarArgsFileWrites t (!f) d ∧
    cifarArgsFileWrites true f d = [] ∧
    cifarArgsFileWrites false true d = [d ++ "/args.txt"] ∧
    symArgsFileWrites true d = [] := by
  cases t <;> simp [cifarArgsFileWrites, symArgsFileWrites]
